import Mathlib

/-!
Verification of the WatchTogether signaling core: a shallow embedding of the
server-side room registry and relay router (the WebSocket signaling server),
the client transport channel (src/lib/signaling.ts) and the WebRTC connection
orchestrator (src/lib/webrtc.ts together with the Host page handlers), with
theorems settling the specification's claims about them.
-/

namespace WatchTogether

/-- Socket identity: stands for a live WebSocket connection object. -/
abbrev ConnId := Nat

/-- Association-list lookup, embedding JS `Map.get` / `WeakMap.get`. -/
def lookupK {α β : Type} [DecidableEq α] (k : α) : List (α × β) → Option β
  | [] => none
  | p :: ps => if p.1 = k then some p.2 else lookupK k ps

/-- Association-list update, embedding JS `Map.set` / `WeakMap.set`:
replaces the entry with the given key in place, or appends a new entry. -/
def setK {α β : Type} [DecidableEq α] (k : α) (v : β) : List (α × β) → List (α × β)
  | [] => [(k, v)]
  | p :: ps => if p.1 = k then (k, v) :: ps else p :: setK k v ps

/-- Association-list removal, embedding JS `Map.delete` (keys are unique in a
JS Map, so removing the first entry with the key is faithful). -/
def delK {α β : Type} [DecidableEq α] (k : α) : List (α × β) → List (α × β)
  | [] => []
  | p :: ps => if p.1 = k then ps else p :: delK k ps

/-- JS `Set.add`: insertion-ordered, idempotent. -/
def addSet {α : Type} [DecidableEq α] (x : α) (l : List α) : List α :=
  if x ∈ l then l else l ++ [x]

/-- Occurrence count of an element in a list (decidable equality). -/
def countOcc {α : Type} [DecidableEq α] (a : α) (l : List α) : Nat :=
  l.countP (fun b => decide (b = a))

/-- Connection role, as recorded in the server's connection metadata. -/
inductive Role
  | host
  | viewer
deriving DecidableEq

/-- Server-side per-connection metadata: `connections.set(ws, {roomId, role, userId})`. -/
structure Meta where
  roomId : String
  role : Role
  userId : String
deriving DecidableEq

/-- Server-side room state: `{ host: WebSocket, viewers: Set<WebSocket> }`. -/
structure Room where
  host : ConnId
  viewers : List ConnId
deriving DecidableEq

/-- The server's mutable state: the `rooms` map and the `connections` metadata map. -/
structure ServerState where
  rooms : List (String × Room)
  conns : List (ConnId × Meta)
deriving DecidableEq

/-- The empty server state at startup. -/
def emptyState : ServerState := ⟨[], []⟩

/-- The point-to-point relayed message types. -/
inductive SigType
  | offer
  | answer
  | iceCandidate
deriving DecidableEq

/-- An inbound offer/answer/ice-candidate message (the relayed fields). -/
structure SigMsg where
  type : SigType
  roomId : String
  targetId : String
  data : String
deriving DecidableEq

/-- An inbound chat message. -/
structure ChatMsg where
  roomId : String
  text : String
  userId : String
  username : String
deriving DecidableEq

/-- Messages the server sends to clients. -/
inductive SMsg
  | error (message : String)
  | roomCreated (roomId userId : String)
  | roomJoined (roomId userId : String)
  | viewerJoined (roomId userId : String)
  | viewerLeft (roomId userId : String)
  | hostLeft (roomId : String)
  | forward (orig : SigMsg) (fromId : String)
  | chat (roomId userId username text : String) (timestamp : Nat)
deriving DecidableEq

/-- Server `handleCreateRoom`: reject if the room exists, else register the
caller as host and acknowledge. Outputs are (destination socket, message). -/
def handleCreateRoom (ws : ConnId) (roomId userId : String) (s : ServerState) :
    ServerState × List (ConnId × SMsg) :=
  match lookupK roomId s.rooms with
  | some _ => (s, [(ws, SMsg.error "Room already exists")])
  | none =>
      ({ rooms := setK roomId ⟨ws, []⟩ s.rooms,
         conns := setK ws ⟨roomId, Role.host, userId⟩ s.conns },
       [(ws, SMsg.roomCreated roomId userId)])

/-- Server `handleJoinRoom`: reject if the room is absent, else add the caller
to the viewer set, record metadata, notify the host (if its socket is open)
and acknowledge the viewer. -/
def handleJoinRoom (isOpen : ConnId → Bool) (ws : ConnId) (roomId userId : String)
    (s : ServerState) : ServerState × List (ConnId × SMsg) :=
  match lookupK roomId s.rooms with
  | none => (s, [(ws, SMsg.error "Room not found")])
  | some room =>
      ({ rooms := setK roomId ⟨room.host, addSet ws room.viewers⟩ s.rooms,
         conns := setK ws ⟨roomId, Role.viewer, userId⟩ s.conns },
       (if isOpen room.host then [(room.host, SMsg.viewerJoined roomId userId)] else []) ++
         [(ws, SMsg.roomJoined roomId userId)])

/-- The scan predicate of the host branch of `handleSignaling`: a viewer
matches when its recorded metadata exists and its userId equals the target. -/
def viewerMatches (conns : List (ConnId × Meta)) (v : ConnId) (targetId : String) : Bool :=
  match lookupK v conns with
  | some vc => vc.userId == targetId
  | none => false

/-- Server `handleSignaling` for offer/answer/ice-candidate: membership check,
then host → first matching viewer by linear scan (sent only if its socket is
open), viewer → host (sent only if the host socket is open), with `fromId`
set to the sender's userId. -/
def handleSignaling (isOpen : ConnId → Bool) (ws : ConnId) (m : SigMsg) (s : ServerState) :
    ServerState × List (ConnId × SMsg) :=
  match lookupK ws s.conns with
  | none => (s, [(ws, SMsg.error "Not in this room")])
  | some c =>
    if c.roomId = m.roomId then
      match lookupK m.roomId s.rooms with
      | none => (s, [(ws, SMsg.error "Room not found")])
      | some room =>
        match c.role with
        | Role.host =>
          match room.viewers.find? (fun v => viewerMatches s.conns v m.targetId) with
          | some v => if isOpen v then (s, [(v, SMsg.forward m c.userId)]) else (s, [])
          | none => (s, [])
        | Role.viewer =>
          if isOpen room.host then (s, [(room.host, SMsg.forward m c.userId)]) else (s, [])
    else (s, [(ws, SMsg.error "Not in this room")])

/-- Server `handleChatMessage`: a non-member's message is silently dropped;
otherwise the chat (with a server timestamp) is broadcast to the host and
every viewer whose socket is open. -/
def handleChatMessage (isOpen : ConnId → Bool) (now : Nat) (ws : ConnId) (m : ChatMsg)
    (s : ServerState) : ServerState × List (ConnId × SMsg) :=
  match lookupK ws s.conns with
  | none => (s, [])
  | some c =>
    if c.roomId = m.roomId then
      match lookupK m.roomId s.rooms with
      | none => (s, [])
      | some room =>
        (s, (if isOpen room.host then
               [(room.host, SMsg.chat m.roomId m.userId m.username m.text now)] else []) ++
            (room.viewers.filter (fun v => isOpen v)).map
              (fun v => (v, SMsg.chat m.roomId m.userId m.username m.text now)))
    else (s, [])

/-- Server `removeFromRoom`: a departing host sends `host-left` to every open
viewer socket and the room is deleted; a departing viewer is erased from the
viewer set and the host (if open) receives `viewer-left`. -/
def removeFromRoom (isOpen : ConnId → Bool) (ws : ConnId) (roomId : String) (c : Meta)
    (s : ServerState) : ServerState × List (ConnId × SMsg) :=
  match lookupK roomId s.rooms with
  | none => (s, [])
  | some room =>
    match c.role with
    | Role.host =>
        ({ rooms := delK roomId s.rooms, conns := s.conns },
         (room.viewers.filter (fun v => isOpen v)).map (fun v => (v, SMsg.hostLeft roomId)))
    | Role.viewer =>
        ({ rooms := setK roomId ⟨room.host, room.viewers.erase ws⟩ s.rooms, conns := s.conns },
         if isOpen room.host then [(room.host, SMsg.viewerLeft roomId c.userId)] else [])

/-- Server `handleLeaveRoom`: silently ignored unless the sender's recorded
room equals the message's roomId. -/
def handleLeaveRoom (isOpen : ConnId → Bool) (ws : ConnId) (roomId : String)
    (s : ServerState) : ServerState × List (ConnId × SMsg) :=
  match lookupK ws s.conns with
  | none => (s, [])
  | some c => if c.roomId = roomId then removeFromRoom isOpen ws roomId c s else (s, [])

/-- Server `handleDisconnect` (socket close or error). -/
def handleDisconnect (isOpen : ConnId → Bool) (ws : ConnId) (s : ServerState) :
    ServerState × List (ConnId × SMsg) :=
  match lookupK ws s.conns with
  | none => (s, [])
  | some c => removeFromRoom isOpen ws c.roomId c s

/-- A room-mutating server operation (the only message kinds that mutate
room or membership state). -/
inductive Op
  | create (ws : ConnId) (roomId userId : String)
  | join (ws : ConnId) (roomId userId : String)
  | leaveRoom (ws : ConnId) (roomId : String)
  | close (ws : ConnId)
deriving DecidableEq

/-- State effect of one operation. -/
def applyOp (isOpen : ConnId → Bool) (op : Op) (s : ServerState) : ServerState :=
  match op with
  | Op.create ws rid uid => (handleCreateRoom ws rid uid s).1
  | Op.join ws rid uid => (handleJoinRoom isOpen ws rid uid s).1
  | Op.leaveRoom ws rid => (handleLeaveRoom isOpen ws rid s).1
  | Op.close ws => (handleDisconnect isOpen ws s).1

/-- Run a sequence of operations from a state. -/
def runOps (isOpen : ConnId → Bool) (ops : List Op) (s : ServerState) : ServerState :=
  ops.foldl (fun t op => applyOp isOpen op t) s

/-- A room references a connection when it records it as host or as a viewer. -/
def RoomRefs (r : Room) (ws : ConnId) : Prop :=
  r.host = ws ∨ ws ∈ r.viewers

instance (r : Room) (ws : ConnId) : Decidable (RoomRefs r ws) := by
  unfold RoomRefs; infer_instance

/-- Number of registry rooms referencing a connection. -/
def refCount (s : ServerState) (ws : ConnId) : Nat :=
  s.rooms.countP (fun p => decide (RoomRefs p.2 ws))

/-- A connection referenced by no room in the registry. -/
def Unreferenced (s : ServerState) (ws : ConnId) : Prop :=
  ∀ p ∈ s.rooms, ¬ RoomRefs p.2 ws

instance (s : ServerState) (ws : ConnId) : Decidable (Unreferenced s ws) := by
  unfold Unreferenced
  infer_instance

/-- Every connection is referenced by at most one room. -/
def ExclusiveAttach (s : ServerState) : Prop :=
  ∀ ws, refCount s ws ≤ 1

/-- States reachable when every create-room/join-room is issued by a
connection not currently referenced by any room (i.e. it left its previous
room first); leave and disconnect are unrestricted. -/
inductive GReach (isOpen : ConnId → Bool) : ServerState → Prop
  | init : GReach isOpen emptyState
  | create (s : ServerState) (ws : ConnId) (rid uid : String) :
      GReach isOpen s → Unreferenced s ws →
      GReach isOpen (applyOp isOpen (Op.create ws rid uid) s)
  | join (s : ServerState) (ws : ConnId) (rid uid : String) :
      GReach isOpen s → Unreferenced s ws →
      GReach isOpen (applyOp isOpen (Op.join ws rid uid) s)
  | leave (s : ServerState) (ws : ConnId) (rid : String) :
      GReach isOpen s → GReach isOpen (applyOp isOpen (Op.leaveRoom ws rid) s)
  | close (s : ServerState) (ws : ConnId) :
      GReach isOpen s → GReach isOpen (applyOp isOpen (Op.close ws) s)

/-- Non-membership of a connection in a room, as the server's guards test it:
no recorded metadata, or a recorded room different from the message's. -/
def NotMember (s : ServerState) (ws : ConnId) (rid : String) : Prop :=
  match lookupK ws s.conns with
  | none => True
  | some c => c.roomId ≠ rid

instance (s : ServerState) (ws : ConnId) (rid : String) : Decidable (NotMember s ws rid) := by
  unfold NotMember
  exact match lookupK ws s.conns with
  | none => inferInstanceAs (Decidable True)
  | some c => inferInstanceAs (Decidable (c.roomId ≠ rid))

/-- The recorded userIds of a room's viewer set, in scan order. -/
def viewerUserIds (s : ServerState) (rid : String) : List String :=
  match lookupK rid s.rooms with
  | some room => room.viewers.filterMap (fun v => (lookupK v s.conns).map Meta.userId)
  | none => []

/-- WebSocket readyState values. -/
inductive WsReady
  | connecting
  | opened
  | closing
  | closed
deriving DecidableEq

/-- Client `SignalingService` state (src/lib/signaling.ts). `ws` is the socket
handle with its readyState (`none` when `this.ws === null`); `sent` is the
ghost log of payloads actually transmitted on a socket. -/
structure Transport where
  ws : Option WsReady
  sendQueue : List String
  sent : List String
  reconnectAttempts : Nat
  reconnectTimer : Option Nat
  intentionallyClosed : Bool
  autoReconnect : Bool
  isStarted : Bool
deriving DecidableEq

/-- `maxReconnectAttempts = 10`. -/
def maxReconnectAttempts : Nat := 10

/-- `baseReconnectDelay = 1000` (ms). -/
def baseReconnectDelay : Nat := 1000

/-- `connect()`: skipped if a socket is already OPEN or CONNECTING; otherwise
a fresh WebSocket is created (entering CONNECTING). -/
def Transport.connect (s : Transport) : Transport :=
  if s.ws = some WsReady.opened ∨ s.ws = some WsReady.connecting then s
  else { s with ws := some WsReady.connecting }

/-- `scheduleReconnect()`: increments the attempt counter, gives up past the
maximum, else arms the timer with delay `base * min(30, attempts)`. -/
def Transport.scheduleReconnect (s : Transport) : Transport :=
  if !s.autoReconnect || !s.isStarted then s
  else
    let a := s.reconnectAttempts + 1
    if a > maxReconnectAttempts then { s with reconnectAttempts := a }
    else { s with reconnectAttempts := a,
                  reconnectTimer := some (baseReconnectDelay * min 30 a) }

/-- `handleClose(ev)`: drop the socket handle, then schedule a reconnect
unless the close was intentional or the service is stopped. -/
def Transport.handleClose (s : Transport) : Transport :=
  let s1 := { s with ws := none }
  if !s1.intentionallyClosed && s1.autoReconnect && s1.isStarted then
    Transport.scheduleReconnect s1
  else s1

/-- `start(autoConnect)`: a second call while already started is a no-op. -/
def Transport.start (autoConnect : Bool) (s : Transport) : Transport :=
  if s.isStarted then s
  else
    let s1 := { s with isStarted := true, autoReconnect := true, intentionallyClosed := false }
    if autoConnect then Transport.connect s1 else s1

/-- `safeSend(message)`: transmit when OPEN (a throwing send pushes the
payload onto the queue), enqueue when CONNECTING, otherwise enqueue and
trigger a connection attempt. `sendOk` tells whether the raw send throws. -/
def Transport.safeSend (sendOk : Bool) (payload : String) (s : Transport) : Transport :=
  match s.ws with
  | some WsReady.opened =>
      if sendOk then { s with sent := s.sent ++ [payload] }
      else { s with sendQueue := s.sendQueue ++ [payload] }
  | some WsReady.connecting => { s with sendQueue := s.sendQueue ++ [payload] }
  | _ => Transport.connect { s with sendQueue := s.sendQueue ++ [payload] }

/-- The queue-flush loop of `handleOpen`: shift the head, try to send it; on
a send failure unshift it back and stop draining for this cycle. `ok i`
tells whether the i-th send attempt of this drain succeeds. Returns the
remaining queue and the extended transmission log. -/
def drainGo (ok : Nat → Bool) : List String → List String → List String × List String
  | [], sent => ([], sent)
  | p :: rest, sent =>
      if ok 0 then drainGo (fun i => ok (i + 1)) rest (sent ++ [p])
      else (p :: rest, sent)

/-- `handleOpen`: reset the attempt counter and drain the queue in FIFO
order. (The subsequent automatic room rejoin issues fresh sends and is
outside the queued-message log.) -/
def Transport.handleOpen (ok : Nat → Bool) (s : Transport) : Transport :=
  let r := drainGo ok s.sendQueue s.sent
  { s with reconnectAttempts := 0, sendQueue := r.1, sent := r.2 }

/-- The channel is down: no socket handle, or a socket still CONNECTING. -/
def ChannelDown (s : Transport) : Prop :=
  s.ws = none ∨ s.ws = some WsReady.connecting

/-- Send each message of a list through `safeSend` (raw sends succeeding). -/
def enqueueAll (msgs : List String) (s : Transport) : Transport :=
  msgs.foldl (fun t p => Transport.safeSend true p t) s

/-- One disconnect/reconnect cycle: the socket closes unexpectedly, `msgs`
are sent while the channel is down, then the reconnect's socket opens and
the queue is drained (all raw sends succeeding). -/
def cycle (msgs : List String) (s : Transport) : Transport :=
  let s1 := Transport.handleClose s
  let s2 := enqueueAll msgs s1
  let s3 := { s2 with ws := some WsReady.opened }
  Transport.handleOpen (fun _ => true) s3

/-- Iterated disconnect/reconnect cycles. -/
def runCycles (cycles : List (List String)) (s : Transport) : Transport :=
  cycles.foldl (fun t c => cycle c t) s

/-- State of an `RTCPeerConnection` as negotiation observes it: the remote
description, and the list of ICE candidates successfully applied to it. -/
structure BrowserPeer where
  remoteDesc : Option String
  candidates : List String
deriving DecidableEq

/-- Modelled from the WebRTC platform standard (external to the repository):
`RTCPeerConnection.addIceCandidate` rejects with `InvalidStateError` while no
remote description is set, and otherwise applies the candidate. -/
def rtcAddIceCandidate (p : BrowserPeer) (c : String) : Except String BrowserPeer :=
  match p.remoteDesc with
  | none => Except.error "InvalidStateError"
  | some _ => Except.ok { p with candidates := p.candidates ++ [c] }

/-- Platform `RTCPeerConnection.setRemoteDescription`. -/
def rtcSetRemoteDescription (p : BrowserPeer) (d : String) : BrowserPeer :=
  { p with remoteDesc := some d }

/-- `WebRTCManager` (src/lib/webrtc.ts): the per-peer connection map. It has
no field buffering pending ICE candidates. -/
structure WebRTCManager where
  peerConnections : List (String × BrowserPeer)
deriving DecidableEq

/-- `WebRTCManager.addIceCandidate`: look the peer up and apply the candidate
to the underlying connection immediately. -/
def WebRTCManager.addIceCandidate (m : WebRTCManager) (peerId c : String) :
    Except String WebRTCManager :=
  match lookupK peerId m.peerConnections with
  | none => Except.error "Peer connection not found"
  | some p =>
    match rtcAddIceCandidate p c with
    | Except.error e => Except.error e
    | Except.ok p2 => Except.ok ⟨setK peerId p2 m.peerConnections⟩

/-- `WebRTCManager.setRemoteDescription`. -/
def WebRTCManager.setRemoteDescription (m : WebRTCManager) (peerId d : String) :
    Except String WebRTCManager :=
  match lookupK peerId m.peerConnections with
  | none => Except.error "Peer connection not found"
  | some p => Except.ok ⟨setK peerId (rtcSetRemoteDescription p d) m.peerConnections⟩

/-- The Host page's `handleIceCandidate` callback: for a message addressed to
this peer, apply the candidate at once; an error is caught, logged and
otherwise ignored (the candidate is dropped, never retried). -/
def hostHandleIceCandidate (myPeerId : String) (m : WebRTCManager)
    (fromId targetId cand : String) : WebRTCManager :=
  if targetId = myPeerId then
    match m.addIceCandidate fromId cand with
    | Except.ok m2 => m2
    | Except.error _ => m
  else m

theorem lookupK_setK_self {α β : Type} [DecidableEq α] (k : α) (v : β) (l : List (α × β)) :
    lookupK k (setK k v l) = some v := by
  induction l with
  | nil => simp [setK, lookupK]
  | cons p ps ih =>
      by_cases h : p.1 = k
      · simp [setK, h, lookupK]
      · simp [setK, h, lookupK, ih]

theorem setK_absent {α β : Type} [DecidableEq α] (k : α) (v : β) (l : List (α × β))
    (h : lookupK k l = none) : setK k v l = l ++ [(k, v)] := by
  induction l with
  | nil => simp [setK]
  | cons p ps ih =>
      by_cases hp : p.1 = k
      · simp [lookupK, hp] at h
      · simp [lookupK, hp] at h
        simp [setK, hp, ih h]

theorem setK_lookup_self_eq {α β : Type} [DecidableEq α] (k : α) (v : β) (l : List (α × β))
    (h : lookupK k l = some v) : setK k v l = l := by
  induction l with
  | nil => simp [lookupK] at h
  | cons p ps ih =>
      by_cases hp : p.1 = k
      · have h2 : p.2 = v := by simpa [lookupK, hp] using h
        subst h2
        subst hp
        simp [setK]
      · simp [lookupK, hp] at h
        simp [setK, hp, ih h]

theorem lookupK_eq_none_of_not_mem {α β : Type} [DecidableEq α] (k : α) (l : List (α × β))
    (h : k ∉ l.map Prod.fst) : lookupK k l = none := by
  induction l with
  | nil => simp [lookupK]
  | cons p ps ih =>
      simp only [List.map_cons, List.mem_cons] at h
      push_neg at h
      have hp : p.1 ≠ k := fun hk => h.1 hk.symm
      simp [lookupK, hp, ih h.2]

theorem delK_lookup_none {α β : Type} [DecidableEq α] (k : α) (l : List (α × β))
    (hnd : (l.map Prod.fst).Nodup) : lookupK k (delK k l) = none := by
  induction l with
  | nil => simp [delK, lookupK]
  | cons p ps ih =>
      simp only [List.map_cons, List.nodup_cons] at hnd
      by_cases hp : p.1 = k
      · subst hp
        have hd : delK p.1 (p :: ps) = ps := by simp [delK]
        rw [hd]
        exact lookupK_eq_none_of_not_mem _ _ hnd.1
      · simp [delK, hp, lookupK, ih hnd.2]

theorem mem_addSet {α : Type} [DecidableEq α] (x y : α) (l : List α) :
    y ∈ addSet x l ↔ y ∈ l ∨ y = x := by
  unfold addSet
  by_cases h : x ∈ l
  · simp [h]
    intro hy; subst hy; exact h
  · simp [h]

/-- C1: for every room identifier, createRoom succeeds at most once: an
existing identifier is answered with the "Room already exists" error to the
sender only, leaving the registry entry unchanged; an absent identifier
registers the caller as host and acknowledges with room-created echoing
roomId and userId; a second create-room with the same identifier keeps
failing, and after the host departs (room deleted) the identifier is
creatable again. -/
theorem c1_create_room_at_most_once (isOpen : ConnId → Bool) (s : ServerState)
    (ws ws2 : ConnId) (rid uid uid2 : String) (room : Room) (c : Meta) :
    (lookupK rid s.rooms = some room →
      handleCreateRoom ws rid uid s = (s, [(ws, SMsg.error "Room already exists")]))
    ∧ (lookupK rid s.rooms = none →
        handleCreateRoom ws rid uid s =
          ({ rooms := s.rooms ++ [(rid, ⟨ws, []⟩)],
             conns := setK ws ⟨rid, Role.host, uid⟩ s.conns },
           [(ws, SMsg.roomCreated rid uid)])
        ∧ handleCreateRoom ws2 rid uid2 (handleCreateRoom ws rid uid s).1 =
            ((handleCreateRoom ws rid uid s).1, [(ws2, SMsg.error "Room already exists")]))
    ∧ ((s.rooms.map Prod.fst).Nodup → lookupK rid s.rooms = some room →
        c.role = Role.host →
        lookupK rid ((removeFromRoom isOpen ws rid c s).1).rooms = none
        ∧ (handleCreateRoom ws2 rid uid2 (removeFromRoom isOpen ws rid c s).1).2 =
            [(ws2, SMsg.roomCreated rid uid2)]) := by
  refine ⟨?_, ?_, ?_⟩
  · intro h
    simp [handleCreateRoom, h]
  · intro h
    constructor
    · simp [handleCreateRoom, h, setK_absent rid _ _ h]
    · simp only [handleCreateRoom, h]
      rw [setK_absent rid _ _ h]
      have : lookupK rid (s.rooms ++ [(rid, (⟨ws, []⟩ : Room))]) = some ⟨ws, []⟩ := by
        rw [← setK_absent rid _ _ h]
        exact lookupK_setK_self rid _ s.rooms
      simp [this]
  · intro hnd h hrole
    have hdel : (removeFromRoom isOpen ws rid c s).1.rooms = delK rid s.rooms := by
      simp [removeFromRoom, h, hrole]
    have hnone : lookupK rid ((removeFromRoom isOpen ws rid c s).1).rooms = none := by
      rw [hdel]; exact delK_lookup_none rid s.rooms hnd
    exact ⟨hnone, by simp [handleCreateRoom, hnone]⟩

/-- Witness for C1 at a concrete one-room state. -/
theorem c1_create_room_at_most_once_witness :
    handleCreateRoom 2 "r1" "u" ⟨[("r1", ⟨1, []⟩)], [(1, ⟨"r1", Role.host, "h"⟩)]⟩ =
      (⟨[("r1", ⟨1, []⟩)], [(1, ⟨"r1", Role.host, "h"⟩)]⟩,
       [(2, SMsg.error "Room already exists")])
    ∧ lookupK "r1" ((removeFromRoom (fun _ => true) 1 "r1" ⟨"r1", Role.host, "h"⟩
        ⟨[("r1", ⟨1, []⟩)], [(1, ⟨"r1", Role.host, "h"⟩)]⟩).1).rooms = none := by
  constructor
  · exact (c1_create_room_at_most_once (fun _ => true) _ 2 2 "r1" "u" "u"
      ⟨1, []⟩ ⟨"r1", Role.host, "h"⟩).1 (by decide)
  · exact ((c1_create_room_at_most_once (fun _ => true) _ 1 2 "r1" "u" "u"
      ⟨1, []⟩ ⟨"r1", Role.host, "h"⟩).2.2 (by decide) (by decide) rfl).1

theorem handleSignaling_fst (isOpen : ConnId → Bool) (ws : ConnId) (m : SigMsg)
    (s : ServerState) : (handleSignaling isOpen ws m s).1 = s := by
  unfold handleSignaling
  repeat' split
  all_goals rfl

theorem handleChatMessage_fst (isOpen : ConnId → Bool) (now : Nat) (ws : ConnId)
    (cm : ChatMsg) (s : ServerState) : (handleChatMessage isOpen now ws cm s).1 = s := by
  unfold handleChatMessage
  repeat' split
  all_goals rfl

/-- C10: relay-only message handling is read-only on the registry — for every
offer/answer/ice-candidate and every chat-message, whatever branch is taken,
the rooms map and all per-connection metadata are exactly unchanged. -/
theorem c10_relay_read_only (isOpen : ConnId → Bool) (now : Nat) (ws : ConnId)
    (m : SigMsg) (cm : ChatMsg) (s : ServerState) :
    (handleSignaling isOpen ws m s).1 = s ∧ (handleChatMessage isOpen now ws cm s).1 = s :=
  ⟨handleSignaling_fst isOpen ws m s, handleChatMessage_fst isOpen now ws cm s⟩

/-- Counterexample to C4 as stated: a connection with no membership in room
"r1" sends a chat-message and a leave-room naming "r1"; the server's response
is empty — no error message is sent, both are silent drops. -/
theorem c4_non_membership_cex :
    handleChatMessage (fun _ => true) 0 2 ⟨"r1", "hi", "u", "U"⟩
        ⟨[("r1", ⟨1, []⟩)], [(1, ⟨"r1", Role.host, "h"⟩)]⟩ =
      (⟨[("r1", ⟨1, []⟩)], [(1, ⟨"r1", Role.host, "h"⟩)]⟩, [])
    ∧ handleLeaveRoom (fun _ => true) 2 "r1"
        ⟨[("r1", ⟨1, []⟩)], [(1, ⟨"r1", Role.host, "h"⟩)]⟩ =
      (⟨[("r1", ⟨1, []⟩)], [(1, ⟨"r1", Role.host, "h"⟩)]⟩, []) := by
  constructor <;> decide

/-- C4 amended: only the point-to-point relay types (offer/answer/
ice-candidate) from a non-member are answered with an error ("Not in this
room"); a chat-message or leave-room naming a room the sender is not a member
of is silently dropped with no response and no state change. -/
theorem c4_non_membership_amended (isOpen : ConnId → Bool) (now : Nat) (ws : ConnId)
    (rid : String) (m : SigMsg) (cm : ChatMsg) (s : ServerState) :
    (NotMember s ws cm.roomId → handleChatMessage isOpen now ws cm s = (s, []))
    ∧ (NotMember s ws rid → handleLeaveRoom isOpen ws rid s = (s, []))
    ∧ (NotMember s ws m.roomId →
        handleSignaling isOpen ws m s = (s, [(ws, SMsg.error "Not in this room")])) := by
  refine ⟨?_, ?_, ?_⟩
  · intro h
    unfold NotMember at h
    unfold handleChatMessage
    cases hc : lookupK ws s.conns with
    | none => rfl
    | some c =>
        rw [hc] at h
        simp [h]
  · intro h
    unfold NotMember at h
    unfold handleLeaveRoom
    cases hc : lookupK ws s.conns with
    | none => rfl
    | some c =>
        rw [hc] at h
        simp [h]
  · intro h
    unfold NotMember at h
    unfold handleSignaling
    cases hc : lookupK ws s.conns with
    | none => rfl
    | some c =>
        rw [hc] at h
        simp [h]

/-- Witness for C4 amended at a concrete non-member connection. -/
theorem c4_non_membership_amended_witness :
    handleChatMessage (fun _ => true) 7 3 ⟨"r1", "hey", "u", "U"⟩
        ⟨[("r1", ⟨1, []⟩)], [(3, ⟨"other", Role.viewer, "x"⟩)]⟩ =
      (⟨[("r1", ⟨1, []⟩)], [(3, ⟨"other", Role.viewer, "x"⟩)]⟩, [])
    ∧ handleSignaling (fun _ => true) 3 ⟨SigType.offer, "r1", "h", "sdp"⟩
        ⟨[("r1", ⟨1, []⟩)], [(3, ⟨"other", Role.viewer, "x"⟩)]⟩ =
      (⟨[("r1", ⟨1, []⟩)], [(3, ⟨"other", Role.viewer, "x"⟩)]⟩,
       [(3, SMsg.error "Not in this room")]) := by
  constructor
  · exact (c4_non_membership_amended (fun _ => true) 7 3 "r1"
      ⟨SigType.offer, "r1", "h", "sdp"⟩ ⟨"r1", "hey", "u", "U"⟩ _).1 (by decide)
  · exact (c4_non_membership_amended (fun _ => true) 7 3 "r1"
      ⟨SigType.offer, "r1", "h", "sdp"⟩ ⟨"r1", "hey", "u", "U"⟩ _).2.2 (by decide)

theorem find?_first {α : Type} (p : α → Bool) (pre : List α) (v : α) (post : List α)
    (hpre : ∀ u ∈ pre, p u = false) (hv : p v = true) :
    (pre ++ v :: post).find? p = some v := by
  induction pre with
  | nil => simpa using List.find?_cons_of_pos post hv
  | cons u us ih =>
      have hu : ¬ p u := by simp [hpre u (by simp)]
      simp only [List.cons_append]
      rw [List.find?_cons_of_neg _ hu]
      exact ih (fun x hx => hpre x (by simp [hx]))

/-- Counterexample to C3 as stated: with the host's socket not open, an
offer from a member viewer is not forwarded at all — the output is empty,
so the message is not "always forwarded to the room's current host". -/
theorem c3_signaling_routing_cex :
    handleSignaling (fun i => i == 2) 2 ⟨SigType.offer, "r1", "h", "sdp"⟩
        ⟨[("r1", ⟨1, [2]⟩)], [(1, ⟨"r1", Role.host, "h"⟩), (2, ⟨"r1", Role.viewer, "v"⟩)]⟩ =
      (⟨[("r1", ⟨1, [2]⟩)], [(1, ⟨"r1", Role.host, "h"⟩), (2, ⟨"r1", Role.viewer, "v"⟩)]⟩,
       []) := by
  decide

/-- C3 amended: for a member sender, if the role is host the message goes to
the first viewer (by linear scan of the viewer set) whose recorded peer
identifier equals targetId, provided that viewer's socket is open (a closed
first match means nothing is sent, with no fallback); an unmatched targetId
is silently dropped with no error; if the role is viewer the message goes to
the room's current host provided the host socket is open; the forwarded
payload is the original message annotated with fromId set to the sender's
peer identifier, and the registry is unchanged. -/
theorem c3_signaling_routing_amended (isOpen : ConnId → Bool) (ws : ConnId) (m : SigMsg)
    (s : ServerState) (c : Meta) (room : Room)
    (hc : lookupK ws s.conns = some c)
    (hrm : c.roomId = m.roomId)
    (hr : lookupK m.roomId s.rooms = some room) :
    (handleSignaling isOpen ws m s).1 = s
    ∧ (c.role = Role.host →
        ((∀ v ∈ room.viewers, viewerMatches s.conns v m.targetId = false) →
          (handleSignaling isOpen ws m s).2 = [])
        ∧ ∀ pre v post, room.viewers = pre ++ v :: post →
            (∀ u ∈ pre, viewerMatches s.conns u m.targetId = false) →
            viewerMatches s.conns v m.targetId = true →
            (handleSignaling isOpen ws m s).2 =
              if isOpen v then [(v, SMsg.forward m c.userId)] else [])
    ∧ (c.role = Role.viewer →
        (handleSignaling isOpen ws m s).2 =
          if isOpen room.host then [(room.host, SMsg.forward m c.userId)] else []) := by
  refine ⟨handleSignaling_fst isOpen ws m s, ?_, ?_⟩
  · intro hrole
    constructor
    · intro hall
      have hfind : room.viewers.find? (fun v => viewerMatches s.conns v m.targetId) = none :=
        List.find?_eq_none.mpr (fun x hx => by simp [hall x hx])
      simp [handleSignaling, hc, hrm, hr, hrole, hfind]
    · intro pre v post hsplit hpre hv
      have hfind : room.viewers.find? (fun v => viewerMatches s.conns v m.targetId) = some v := by
        rw [hsplit]
        exact find?_first _ pre v post hpre hv
      by_cases ho : isOpen v
      · simp [handleSignaling, hc, hrm, hr, hrole, hfind, ho]
      · simp [handleSignaling, hc, hrm, hr, hrole, hfind, ho]
  · intro hrole
    by_cases ho : isOpen room.host <;>
      simp [handleSignaling, hc, hrm, hr, hrole, ho]

/-- Witness for C3 amended: host-to-second-viewer forwarding by linear scan,
and viewer-to-host forwarding, both with fromId annotated. -/
theorem c3_signaling_routing_amended_witness :
    (handleSignaling (fun _ => true) 1 ⟨SigType.offer, "r1", "v3", "sdp"⟩
        ⟨[("r1", ⟨1, [2, 3]⟩)],
         [(1, ⟨"r1", Role.host, "h"⟩), (2, ⟨"r1", Role.viewer, "v2"⟩),
          (3, ⟨"r1", Role.viewer, "v3"⟩)]⟩).2 =
      [(3, SMsg.forward ⟨SigType.offer, "r1", "v3", "sdp"⟩ "h")]
    ∧ (handleSignaling (fun _ => true) 2 ⟨SigType.answer, "r1", "h", "sdp"⟩
        ⟨[("r1", ⟨1, [2, 3]⟩)],
         [(1, ⟨"r1", Role.host, "h"⟩), (2, ⟨"r1", Role.viewer, "v2"⟩),
          (3, ⟨"r1", Role.viewer, "v3"⟩)]⟩).2 =
      [(1, SMsg.forward ⟨SigType.answer, "r1", "h", "sdp"⟩ "v2")] := by
  constructor
  · have h := ((c3_signaling_routing_amended (fun _ => true) 1
      ⟨SigType.offer, "r1", "v3", "sdp"⟩
      ⟨[("r1", ⟨1, [2, 3]⟩)],
       [(1, ⟨"r1", Role.host, "h"⟩), (2, ⟨"r1", Role.viewer, "v2"⟩),
        (3, ⟨"r1", Role.viewer, "v3"⟩)]⟩
      ⟨"r1", Role.host, "h"⟩ ⟨1, [2, 3]⟩ (by decide) (by decide) (by decide)).2.1 rfl).2
      [2] 3 [] (by decide) (by decide) (by decide)
    simpa using h
  · have h := (c3_signaling_routing_amended (fun _ => true) 2
      ⟨SigType.answer, "r1", "h", "sdp"⟩
      ⟨[("r1", ⟨1, [2, 3]⟩)],
       [(1, ⟨"r1", Role.host, "h"⟩), (2, ⟨"r1", Role.viewer, "v2"⟩),
        (3, ⟨"r1", Role.viewer, "v3"⟩)]⟩
      ⟨"r1", Role.viewer, "v2"⟩ ⟨1, [2, 3]⟩ (by decide) (by decide) (by decide)).2.2 rfl
    simpa using h

theorem countOcc_eq_zero {α : Type} [DecidableEq α] {a : α} {l : List α}
    (h : a ∉ l) : countOcc a l = 0 := by
  unfold countOcc
  refine List.countP_eq_zero.mpr (fun b hb => ?_)
  simp only [decide_eq_true_eq]
  rintro rfl
  exact h hb

theorem countOcc_eq_one {α : Type} [DecidableEq α] {a : α} {l : List α}
    (d : l.Nodup) (h : a ∈ l) : countOcc a l = 1 := by
  induction l with
  | nil => simp at h
  | cons b bs ih =>
      rw [List.nodup_cons] at d
      unfold countOcc
      rw [List.countP_cons]
      rcases List.mem_cons.mp h with hab | hmem
      · subst hab
        have h0 : countOcc a bs = 0 := countOcc_eq_zero d.1
        unfold countOcc at h0
        simp [h0]
      · have hba : b ≠ a := fun hba => d.1 (hba ▸ hmem)
        have h1 := ih d.2 hmem
        unfold countOcc at h1
        simp [h1, hba]

/-- C5: for every leave (explicit leave-room or socket close) of a member of
an existing room: a departing host deletes the room from the registry, every
currently-open viewer socket receives host-left exactly once (closed viewer
sockets receive nothing), and the identifier is immediately re-creatable; a
departing viewer is only erased from the viewer set, the host (if open)
receives viewer-left with the departing userId, and the room persists (so
removing the last viewer never deletes it). -/
theorem c5_leave_semantics (isOpen : ConnId → Bool) (ws ws2 : ConnId) (rid uid2 : String)
    (c : Meta) (s : ServerState) (room : Room)
    (hr : lookupK rid s.rooms = some room)
    (hknd : (s.rooms.map Prod.fst).Nodup)
    (hvnd : room.viewers.Nodup) :
    (c.role = Role.host →
      lookupK rid (removeFromRoom isOpen ws rid c s).1.rooms = none
      ∧ (removeFromRoom isOpen ws rid c s).2 =
          (room.viewers.filter (fun v => isOpen v)).map (fun v => (v, SMsg.hostLeft rid))
      ∧ (∀ v, v ∈ room.viewers → isOpen v = true →
          countOcc (v, SMsg.hostLeft rid) (removeFromRoom isOpen ws rid c s).2 = 1)
      ∧ (∀ v, isOpen v = false →
          countOcc (v, SMsg.hostLeft rid) (removeFromRoom isOpen ws rid c s).2 = 0)
      ∧ (handleCreateRoom ws2 rid uid2 (removeFromRoom isOpen ws rid c s).1).2 =
          [(ws2, SMsg.roomCreated rid uid2)])
    ∧ (c.role = Role.viewer →
        lookupK rid (removeFromRoom isOpen ws rid c s).1.rooms =
          some ⟨room.host, room.viewers.erase ws⟩
        ∧ (removeFromRoom isOpen ws rid c s).2 =
            (if isOpen room.host then [(room.host, SMsg.viewerLeft rid c.userId)] else [])
        ∧ (removeFromRoom isOpen ws rid c s).1.conns = s.conns) := by
  constructor
  · intro hrole
    have hout : (removeFromRoom isOpen ws rid c s).2 =
        (room.viewers.filter (fun v => isOpen v)).map (fun v => (v, SMsg.hostLeft rid)) := by
      simp [removeFromRoom, hr, hrole]
    have hdel : (removeFromRoom isOpen ws rid c s).1.rooms = delK rid s.rooms := by
      simp [removeFromRoom, hr, hrole]
    have hnone : lookupK rid (removeFromRoom isOpen ws rid c s).1.rooms = none := by
      rw [hdel]; exact delK_lookup_none rid s.rooms hknd
    refine ⟨hnone, hout, ?_, ?_, ?_⟩
    · intro v hv ho
      rw [hout]
      have hinj : Function.Injective (fun v : ConnId => (v, SMsg.hostLeft rid)) :=
        fun a b hab => congrArg Prod.fst hab
      have hnd2 : ((room.viewers.filter (fun v => isOpen v)).map
          (fun v => (v, SMsg.hostLeft rid))).Nodup :=
        (hvnd.filter _).map hinj
      have hmem : (v, SMsg.hostLeft rid) ∈
          (room.viewers.filter (fun v => isOpen v)).map (fun v => (v, SMsg.hostLeft rid)) :=
        List.mem_map.mpr ⟨v, List.mem_filter.mpr ⟨hv, ho⟩, rfl⟩
      exact countOcc_eq_one hnd2 hmem
    · intro v ho
      rw [hout]
      refine countOcc_eq_zero (fun hmem => ?_)
      rcases List.mem_map.mp hmem with ⟨u, hu, huv⟩
      have huv1 : u = v := congrArg Prod.fst huv
      subst huv1
      have := (List.mem_filter.mp hu).2
      rw [ho] at this
      exact Bool.false_ne_true this
    · simp [handleCreateRoom, hnone]
  · intro hrole
    have h1 : (removeFromRoom isOpen ws rid c s).1.rooms =
        setK rid ⟨room.host, room.viewers.erase ws⟩ s.rooms := by
      simp [removeFromRoom, hr, hrole]
    refine ⟨?_, ?_, ?_⟩
    · rw [h1]; exact lookupK_setK_self rid _ s.rooms
    · simp [removeFromRoom, hr, hrole]
    · simp [removeFromRoom, hr, hrole]

/-- Witness for C5: host departure with one open and one closed viewer, and
a viewer departure, at a concrete two-viewer room. -/
theorem c5_leave_semantics_witness :
    countOcc (2, SMsg.hostLeft "r1")
      (removeFromRoom (fun i => i != 3) 1 "r1" ⟨"r1", Role.host, "h"⟩
        ⟨[("r1", ⟨1, [2, 3]⟩)],
         [(1, ⟨"r1", Role.host, "h"⟩), (2, ⟨"r1", Role.viewer, "v2"⟩),
          (3, ⟨"r1", Role.viewer, "v3"⟩)]⟩).2 = 1
    ∧ countOcc (3, SMsg.hostLeft "r1")
      (removeFromRoom (fun i => i != 3) 1 "r1" ⟨"r1", Role.host, "h"⟩
        ⟨[("r1", ⟨1, [2, 3]⟩)],
         [(1, ⟨"r1", Role.host, "h"⟩), (2, ⟨"r1", Role.viewer, "v2"⟩),
          (3, ⟨"r1", Role.viewer, "v3"⟩)]⟩).2 = 0
    ∧ lookupK "r1"
      (removeFromRoom (fun i => i != 3) 2 "r1" ⟨"r1", Role.viewer, "v2"⟩
        ⟨[("r1", ⟨1, [2, 3]⟩)],
         [(1, ⟨"r1", Role.host, "h"⟩), (2, ⟨"r1", Role.viewer, "v2"⟩),
          (3, ⟨"r1", Role.viewer, "v3"⟩)]⟩).1.rooms = some ⟨1, [3]⟩ := by
  refine ⟨?_, ?_, ?_⟩
  · exact ((c5_leave_semantics (fun i => i != 3) 1 9 "r1" "u" ⟨"r1", Role.host, "h"⟩
      ⟨[("r1", ⟨1, [2, 3]⟩)],
       [(1, ⟨"r1", Role.host, "h"⟩), (2, ⟨"r1", Role.viewer, "v2"⟩),
        (3, ⟨"r1", Role.viewer, "v3"⟩)]⟩ ⟨1, [2, 3]⟩
      (by decide) (by decide) (by decide)).1 rfl).2.2.1 2 (by decide) (by decide)
  · exact ((c5_leave_semantics (fun i => i != 3) 1 9 "r1" "u" ⟨"r1", Role.host, "h"⟩
      ⟨[("r1", ⟨1, [2, 3]⟩)],
       [(1, ⟨"r1", Role.host, "h"⟩), (2, ⟨"r1", Role.viewer, "v2"⟩),
        (3, ⟨"r1", Role.viewer, "v3"⟩)]⟩ ⟨1, [2, 3]⟩
      (by decide) (by decide) (by decide)).1 rfl).2.2.2.1 3 (by decide)
  · exact (((c5_leave_semantics (fun i => i != 3) 2 9 "r1" "u" ⟨"r1", Role.viewer, "v2"⟩
      ⟨[("r1", ⟨1, [2, 3]⟩)],
       [(1, ⟨"r1", Role.host, "h"⟩), (2, ⟨"r1", Role.viewer, "v2"⟩),
        (3, ⟨"r1", Role.viewer, "v3"⟩)]⟩ ⟨1, [2, 3]⟩
      (by decide) (by decide) (by decide)).2 rfl).1).trans (by decide)

/-- Counterexample to C9 as stated: after `create`, then `join` with userId
"u" from socket 2, then `join` again with the same userId "u" from a new
socket 3 (a reconnect), the room's viewer membership records userId "u"
twice — the old socket's entry is not replaced. -/
theorem c9_rejoin_cex :
    countOcc "u" (viewerUserIds (runOps (fun _ => true)
      [Op.create 1 "A" "h", Op.join 2 "A" "u", Op.join 3 "A" "u"] emptyState) "A") = 2 := by
  decide

/-- C9 amended: for joinRoom against an existing room, membership is keyed by
socket, not by userId: re-joining on the same socket leaves the viewer set
unchanged (set-add is idempotent) and the latest join wins for the socket's
recorded metadata; a join from a socket not yet in the viewer set appends it
exactly once at the end — in particular a re-join with the same userId from a
new socket adds a second membership entry rather than replacing the old one. -/
theorem c9_rejoin_amended (isOpen : ConnId → Bool) (ws : ConnId) (rid uid : String)
    (s : ServerState) (room : Room)
    (hr : lookupK rid s.rooms = some room) :
    (ws ∈ room.viewers →
      (handleJoinRoom isOpen ws rid uid s).1.rooms = s.rooms
      ∧ lookupK ws (handleJoinRoom isOpen ws rid uid s).1.conns =
          some ⟨rid, Role.viewer, uid⟩)
    ∧ (ws ∉ room.viewers →
        lookupK rid (handleJoinRoom isOpen ws rid uid s).1.rooms =
          some ⟨room.host, room.viewers ++ [ws]⟩) := by
  constructor
  · intro hmem
    have ha : addSet ws room.viewers = room.viewers := by simp [addSet, hmem]
    constructor
    · have h1 : (handleJoinRoom isOpen ws rid uid s).1.rooms =
          setK rid ⟨room.host, addSet ws room.viewers⟩ s.rooms := by
        simp [handleJoinRoom, hr]
      rw [h1, ha]
      exact setK_lookup_self_eq rid room s.rooms hr
    · have h2 : (handleJoinRoom isOpen ws rid uid s).1.conns =
          setK ws ⟨rid, Role.viewer, uid⟩ s.conns := by
        simp [handleJoinRoom, hr]
      rw [h2]
      exact lookupK_setK_self ws _ s.conns
  · intro hmem
    have ha : addSet ws room.viewers = room.viewers ++ [ws] := by simp [addSet, hmem]
    have h1 : (handleJoinRoom isOpen ws rid uid s).1.rooms =
        setK rid ⟨room.host, addSet ws room.viewers⟩ s.rooms := by
      simp [handleJoinRoom, hr]
    rw [h1, ha]
    exact lookupK_setK_self rid _ s.rooms

/-- Witness for C9 amended: a same-socket re-join leaves the viewer set
unchanged and updates the metadata; a new-socket join appends. -/
theorem c9_rejoin_amended_witness :
    (handleJoinRoom (fun _ => true) 2 "A" "u2"
      ⟨[("A", ⟨1, [2]⟩)], [(1, ⟨"A", Role.host, "h"⟩), (2, ⟨"A", Role.viewer, "u"⟩)]⟩).1.rooms
      = [("A", ⟨1, [2]⟩)]
    ∧ lookupK 2 (handleJoinRoom (fun _ => true) 2 "A" "u2"
      ⟨[("A", ⟨1, [2]⟩)], [(1, ⟨"A", Role.host, "h"⟩), (2, ⟨"A", Role.viewer, "u"⟩)]⟩).1.conns
      = some ⟨"A", Role.viewer, "u2"⟩
    ∧ lookupK "A" (handleJoinRoom (fun _ => true) 3 "A" "u"
      ⟨[("A", ⟨1, [2]⟩)], [(1, ⟨"A", Role.host, "h"⟩), (2, ⟨"A", Role.viewer, "u"⟩)]⟩).1.rooms
      = some ⟨1, [2, 3]⟩ := by
  refine ⟨?_, ?_, ?_⟩
  · exact ((c9_rejoin_amended (fun _ => true) 2 "A" "u2"
      ⟨[("A", ⟨1, [2]⟩)], [(1, ⟨"A", Role.host, "h"⟩), (2, ⟨"A", Role.viewer, "u"⟩)]⟩
      ⟨1, [2]⟩ (by decide)).1 (by decide)).1
  · exact ((c9_rejoin_amended (fun _ => true) 2 "A" "u2"
      ⟨[("A", ⟨1, [2]⟩)], [(1, ⟨"A", Role.host, "h"⟩), (2, ⟨"A", Role.viewer, "u"⟩)]⟩
      ⟨1, [2]⟩ (by decide)).1 (by decide)).2
  · exact ((c9_rejoin_amended (fun _ => true) 3 "A" "u"
      ⟨[("A", ⟨1, [2]⟩)], [(1, ⟨"A", Role.host, "h"⟩), (2, ⟨"A", Role.viewer, "u"⟩)]⟩
      ⟨1, [2]⟩ (by decide)).2 (by decide)).trans (by decide)

/-- Counterexample to C8 as stated: socket 3 joins room "A" and then room
"B" without leaving; afterwards it is referenced by two distinct rooms'
viewer sets simultaneously. -/
theorem c8_exclusive_cex :
    refCount (runOps (fun _ => true)
      [Op.create 1 "A" "hA", Op.create 2 "B" "hB", Op.join 3 "A" "v", Op.join 3 "B" "v"]
      emptyState) 3 = 2 := by
  decide

theorem roomRefs_addSet {h : ConnId} {vs : List ConnId} {ws w : ConnId} (hw : w ≠ ws) :
    RoomRefs ⟨h, addSet ws vs⟩ w ↔ RoomRefs ⟨h, vs⟩ w := by
  unfold RoomRefs
  simp [mem_addSet, hw]

theorem countRefs_setK_join_ne {rid : String} {room : Room} {ws w : ConnId}
    (hw : w ≠ ws) :
    ∀ l : List (String × Room), lookupK rid l = some room →
    (setK rid ⟨room.host, addSet ws room.viewers⟩ l).countP
        (fun p => decide (RoomRefs p.2 w)) =
      l.countP (fun p => decide (RoomRefs p.2 w)) := by
  intro l
  induction l with
  | nil => intro hl; simp [lookupK] at hl
  | cons p ps ih =>
      intro hl
      by_cases hp : p.1 = rid
      · have hroom : p.2 = room := by simpa [lookupK, hp] using hl
        subst hroom
        have hs : setK rid ⟨p.2.host, addSet ws p.2.viewers⟩ (p :: ps) =
            (rid, ⟨p.2.host, addSet ws p.2.viewers⟩) :: ps := by simp [setK, hp]
        rw [hs, List.countP_cons, List.countP_cons]
        have : decide (RoomRefs ⟨p.2.host, addSet ws p.2.viewers⟩ w) =
            decide (RoomRefs p.2 w) := by
          simp only [decide_eq_decide]
          exact roomRefs_addSet hw
        rw [this]
      · have hs : setK rid ⟨room.host, addSet ws room.viewers⟩ (p :: ps) =
            p :: setK rid ⟨room.host, addSet ws room.viewers⟩ ps := by simp [setK, hp]
        have hl2 : lookupK rid ps = some room := by simpa [lookupK, hp] using hl
        rw [hs, List.countP_cons, List.countP_cons, ih hl2]

theorem countRefs_setK_join_self {rid : String} {room : Room} {ws : ConnId} :
    ∀ l : List (String × Room), (∀ p ∈ l, ¬ RoomRefs p.2 ws) → lookupK rid l = some room →
    (setK rid ⟨room.host, addSet ws room.viewers⟩ l).countP
        (fun p => decide (RoomRefs p.2 ws)) ≤ 1 := by
  intro l
  induction l with
  | nil => intro _ hl; simp [lookupK] at hl
  | cons p ps ih =>
      intro hall hl
      by_cases hp : p.1 = rid
      · have hroom : p.2 = room := by simpa [lookupK, hp] using hl
        subst hroom
        have hs : setK rid ⟨p.2.host, addSet ws p.2.viewers⟩ (p :: ps) =
            (rid, ⟨p.2.host, addSet ws p.2.viewers⟩) :: ps := by simp [setK, hp]
        rw [hs, List.countP_cons]
        have h0 : ps.countP (fun p => decide (RoomRefs p.2 ws)) = 0 :=
          List.countP_eq_zero.mpr (fun q hq => by
            simpa using hall q (List.mem_cons_of_mem p hq))
        rw [h0]
        split <;> omega
      · have hs : setK rid ⟨room.host, addSet ws room.viewers⟩ (p :: ps) =
            p :: setK rid ⟨room.host, addSet ws room.viewers⟩ ps := by simp [setK, hp]
        have hl2 : lookupK rid ps = some room := by simpa [lookupK, hp] using hl
        have hph : ¬ RoomRefs p.2 ws := hall p (List.mem_cons_self p ps)
        have hd : decide (RoomRefs p.2 ws) = false := decide_eq_false hph
        rw [hs, List.countP_cons]
        rw [hd]
        have h2 := ih (fun q hq => hall q (List.mem_cons_of_mem p hq)) hl2
        simpa using h2

theorem countRefs_delK_le {k : String} {w : ConnId} :
    ∀ l : List (String × Room),
    (delK k l).countP (fun p => decide (RoomRefs p.2 w)) ≤
      l.countP (fun p => decide (RoomRefs p.2 w)) := by
  intro l
  induction l with
  | nil => simp [delK]
  | cons p ps ih =>
      by_cases hp : p.1 = k
      · have hs : delK k (p :: ps) = ps := by simp [delK, hp]
        rw [hs, List.countP_cons]
        omega
      · have hs : delK k (p :: ps) = p :: delK k ps := by simp [delK, hp]
        rw [hs, List.countP_cons, List.countP_cons]
        omega

theorem countRefs_setK_erase_le {rid : String} {room : Room} {ws w : ConnId} :
    ∀ l : List (String × Room), lookupK rid l = some room →
    (setK rid ⟨room.host, room.viewers.erase ws⟩ l).countP
        (fun p => decide (RoomRefs p.2 w)) ≤
      l.countP (fun p => decide (RoomRefs p.2 w)) := by
  intro l
  induction l with
  | nil => intro hl; simp [lookupK] at hl
  | cons p ps ih =>
      intro hl
      by_cases hp : p.1 = rid
      · have hroom : p.2 = room := by simpa [lookupK, hp] using hl
        subst hroom
        have hs : setK rid ⟨p.2.host, p.2.viewers.erase ws⟩ (p :: ps) =
            (rid, ⟨p.2.host, p.2.viewers.erase ws⟩) :: ps := by simp [setK, hp]
        rw [hs, List.countP_cons, List.countP_cons]
        dsimp only
        have hmono : (if decide (RoomRefs ⟨p.2.host, p.2.viewers.erase ws⟩ w) = true
            then 1 else 0) ≤ (if decide (RoomRefs p.2 w) = true then 1 else 0) := by
          by_cases hnew : RoomRefs ⟨p.2.host, p.2.viewers.erase ws⟩ w
          · have hold : RoomRefs p.2 w := by
              rcases hnew with hh | hv
              · exact Or.inl hh
              · exact Or.inr (List.mem_of_mem_erase hv)
            simp [hnew, hold]
          · simp [hnew]
        omega
      · have hs : setK rid ⟨room.host, room.viewers.erase ws⟩ (p :: ps) =
            p :: setK rid ⟨room.host, room.viewers.erase ws⟩ ps := by simp [setK, hp]
        have hl2 : lookupK rid ps = some room := by simpa [lookupK, hp] using hl
        rw [hs, List.countP_cons, List.countP_cons]
        have := ih hl2
        omega

theorem removeFromRoom_refCount_le (isOpen : ConnId → Bool) (ws : ConnId) (rid : String)
    (c : Meta) (s : ServerState) (w : ConnId) :
    refCount (removeFromRoom isOpen ws rid c s).1 w ≤ refCount s w := by
  unfold refCount removeFromRoom
  cases hl : lookupK rid s.rooms with
  | none => simp
  | some room =>
      cases hc : c.role with
      | host =>
          simp only
          exact countRefs_delK_le s.rooms
      | viewer =>
          simp only
          exact countRefs_setK_erase_le s.rooms hl

/-- C8 amended: exclusivity of room attachment holds for disciplined clients:
in every server state reachable by create-room/join-room/leave-room/close
sequences in which each create-room and join-room is issued by a connection
not currently referenced by any room (it left or closed first), every
connection is referenced (as host or viewer) by at most one registry room.
Without that discipline the invariant fails, because join-room does not
remove the joining socket from its previous room's viewer set. -/
theorem c8_exclusive_amended (isOpen : ConnId → Bool) (s : ServerState)
    (h : GReach isOpen s) : ExclusiveAttach s := by
  induction h with
  | init => intro w; simp [refCount, emptyState]
  | create s0 ws rid uid _ hunref ih =>
      intro w
      have happ : applyOp isOpen (Op.create ws rid uid) s0 =
          (handleCreateRoom ws rid uid s0).1 := rfl
      rw [happ]
      cases hl : lookupK rid s0.rooms with
      | some room =>
          have hsame : (handleCreateRoom ws rid uid s0).1 = s0 := by
            simp [handleCreateRoom, hl]
          rw [hsame]; exact ih w
      | none =>
          have hrooms : (handleCreateRoom ws rid uid s0).1.rooms =
              s0.rooms ++ [(rid, ⟨ws, []⟩)] := by
            simp [handleCreateRoom, hl, setK_absent rid _ _ hl]
          unfold refCount
          rw [hrooms, List.countP_append]
          by_cases hw : w = ws
          · subst hw
            have h0 : s0.rooms.countP (fun p => decide (RoomRefs p.2 w)) = 0 :=
              List.countP_eq_zero.mpr (fun p hp => by simpa using hunref p hp)
            rw [h0]
            simp [List.countP_cons, RoomRefs]
          · have hw2 : ws ≠ w := fun hws => hw hws.symm
            have h1 : ([((rid, ⟨ws, []⟩) : String × Room)]).countP
                (fun p => decide (RoomRefs p.2 w)) = 0 := by
              simp [List.countP_cons, RoomRefs, hw2]
            rw [h1]
            have := ih w
            unfold refCount at this
            omega
  | join s0 ws rid uid _ hunref ih =>
      intro w
      have happ : applyOp isOpen (Op.join ws rid uid) s0 =
          (handleJoinRoom isOpen ws rid uid s0).1 := rfl
      rw [happ]
      cases hl : lookupK rid s0.rooms with
      | none =>
          have hsame : (handleJoinRoom isOpen ws rid uid s0).1 = s0 := by
            simp [handleJoinRoom, hl]
          rw [hsame]; exact ih w
      | some room =>
          have hrooms : (handleJoinRoom isOpen ws rid uid s0).1.rooms =
              setK rid ⟨room.host, addSet ws room.viewers⟩ s0.rooms := by
            simp [handleJoinRoom, hl]
          unfold refCount
          rw [hrooms]
          by_cases hw : w = ws
          · subst hw
            exact countRefs_setK_join_self s0.rooms (fun p hp => hunref p hp) hl
          · rw [countRefs_setK_join_ne hw s0.rooms hl]
            exact ih w
  | leave s0 ws rid _ ih =>
      intro w
      have happ : applyOp isOpen (Op.leaveRoom ws rid) s0 =
          (handleLeaveRoom isOpen ws rid s0).1 := rfl
      rw [happ]
      cases hc : lookupK ws s0.conns with
      | none =>
          have hstep : (handleLeaveRoom isOpen ws rid s0).1 = s0 := by
            simp [handleLeaveRoom, hc]
          rw [hstep]; exact ih w
      | some c =>
          by_cases hrm : c.roomId = rid
          · have hstep : (handleLeaveRoom isOpen ws rid s0).1 =
                (removeFromRoom isOpen ws rid c s0).1 := by
              simp [handleLeaveRoom, hc, hrm]
            rw [hstep]
            exact le_trans (removeFromRoom_refCount_le isOpen ws rid c s0 w) (ih w)
          · have hstep : (handleLeaveRoom isOpen ws rid s0).1 = s0 := by
              simp [handleLeaveRoom, hc, hrm]
            rw [hstep]; exact ih w
  | close s0 ws _ ih =>
      intro w
      have happ : applyOp isOpen (Op.close ws) s0 =
          (handleDisconnect isOpen ws s0).1 := rfl
      rw [happ]
      unfold handleDisconnect
      cases hc : lookupK ws s0.conns with
      | none => exact ih w
      | some c =>
          exact le_trans (removeFromRoom_refCount_le isOpen ws c.roomId c s0 w) (ih w)

/-- Witness for C8 amended: a guarded two-step run (create then a join by a
fresh socket) is exclusive. -/
theorem c8_exclusive_amended_witness :
    ExclusiveAttach (applyOp (fun _ => true) (Op.join 2 "A" "u")
      (applyOp (fun _ => true) (Op.create 1 "A" "h") emptyState)) := by
  apply c8_exclusive_amended (fun _ => true)
  apply GReach.join
  · apply GReach.create
    · exact GReach.init
    · decide
  · decide

/-- C2: the orchestrator does not buffer early ICE candidates. With peer
"v1" present but its remote description not yet set (its answer still being
processed), an ice-candidate addressed to this host is applied immediately,
the platform call fails, the error is caught and the candidate is dropped —
the state is unchanged and after the remote description is set the peer's
applied-candidate list is still empty (the candidate is never applied later).
By contrast, a candidate arriving after the remote description is set is
applied. This contradicts the claimed buffer-then-apply behaviour. -/
theorem c2_ice_candidate_not_buffered :
    hostHandleIceCandidate "h1" ⟨[("v1", ⟨none, []⟩)]⟩ "v1" "h1" "cand0" =
      ⟨[("v1", ⟨none, []⟩)]⟩
    ∧ WebRTCManager.setRemoteDescription
        (hostHandleIceCandidate "h1" ⟨[("v1", ⟨none, []⟩)]⟩ "v1" "h1" "cand0")
        "v1" "sdpAnswer" =
      Except.ok ⟨[("v1", ⟨some "sdpAnswer", []⟩)]⟩
    ∧ hostHandleIceCandidate "h1" ⟨[("v1", ⟨some "sdpAnswer", []⟩)]⟩ "v1" "h1" "cand0" =
      ⟨[("v1", ⟨some "sdpAnswer", ["cand0"]⟩)]⟩ := by
  refine ⟨rfl, rfl, rfl⟩

theorem drainGo_all_ok (q : List String) :
    ∀ (sent : List String) (ok : Nat → Bool), (∀ i, ok i = true) →
    drainGo ok q sent = ([], sent ++ q) := by
  induction q with
  | nil => intro sent ok _; simp [drainGo]
  | cons p rest ih =>
      intro sent ok hok
      rw [drainGo, hok 0, if_pos rfl]
      have := ih (sent ++ [p]) (fun i => ok (i + 1)) (fun i => hok (i + 1))
      simpa using this

theorem drainGo_fail_at (q : List String) :
    ∀ (k : Nat) (ok : Nat → Bool) (sent : List String),
    k < q.length → (∀ i, i < k → ok i = true) → ok k = false →
    drainGo ok q sent = (q.drop k, sent ++ q.take k) := by
  induction q with
  | nil => intro k ok sent hk; simp at hk
  | cons p rest ih =>
      intro k ok sent hk hlt hkf
      cases k with
      | zero =>
          rw [drainGo, hkf]
          simp
      | succ k =>
          have h0 : ok 0 = true := hlt 0 (Nat.succ_pos k)
          rw [drainGo, h0, if_pos rfl]
          have := ih k (fun i => ok (i + 1)) (sent ++ [p])
            (Nat.lt_of_succ_lt_succ hk)
            (fun i hi => hlt (i + 1) (Nat.succ_lt_succ hi)) hkf
          simpa using this

theorem handleClose_frame (s : Transport) :
    (Transport.handleClose s).ws = none
    ∧ (Transport.handleClose s).sendQueue = s.sendQueue
    ∧ (Transport.handleClose s).sent = s.sent := by
  refine ⟨?_, ?_, ?_⟩
  all_goals
    unfold Transport.handleClose Transport.scheduleReconnect
    dsimp only
    split_ifs <;> rfl

theorem safeSend_down (s : Transport) (p : String) (ok : Bool) (h : ChannelDown s) :
    (Transport.safeSend ok p s).sendQueue = s.sendQueue ++ [p]
    ∧ (Transport.safeSend ok p s).sent = s.sent
    ∧ ChannelDown (Transport.safeSend ok p s) := by
  rcases h with h | h
  · rw [Transport.safeSend, h]
    unfold Transport.connect
    simp [ChannelDown, h]
  · rw [Transport.safeSend, h]
    simp [ChannelDown]

theorem enqueueAll_down (msgs : List String) :
    ∀ s : Transport, ChannelDown s →
    (enqueueAll msgs s).sendQueue = s.sendQueue ++ msgs
    ∧ (enqueueAll msgs s).sent = s.sent
    ∧ ChannelDown (enqueueAll msgs s) := by
  induction msgs with
  | nil => intro s h; simpa [enqueueAll] using h
  | cons p ms ih =>
      intro s h
      have hstep := safeSend_down s p true h
      have hrest := ih (Transport.safeSend true p s) hstep.2.2
      have h1 : enqueueAll (p :: ms) s = enqueueAll ms (Transport.safeSend true p s) := rfl
      rw [h1, hrest.1, hrest.2.1, hstep.1, hstep.2.1]
      exact ⟨by simp, rfl, hrest.2.2⟩

theorem cycle_spec (msgs : List String) (s : Transport) (hq : s.sendQueue = []) :
    (cycle msgs s).sent = s.sent ++ msgs ∧ (cycle msgs s).sendQueue = [] := by
  have hcl := handleClose_frame s
  have hdn : ChannelDown (Transport.handleClose s) := Or.inl hcl.1
  have henq := enqueueAll_down msgs (Transport.handleClose s) hdn
  have hq2 : (enqueueAll msgs (Transport.handleClose s)).sendQueue = msgs := by
    rw [henq.1, hcl.2.1, hq]; simp
  have hs2 : (enqueueAll msgs (Transport.handleClose s)).sent = s.sent := by
    rw [henq.2.1, hcl.2.2]
  show (Transport.handleOpen (fun _ => true)
      { enqueueAll msgs (Transport.handleClose s) with ws := some WsReady.opened }).sent =
        s.sent ++ msgs
    ∧ (Transport.handleOpen (fun _ => true)
      { enqueueAll msgs (Transport.handleClose s) with ws := some WsReady.opened }).sendQueue = []
  unfold Transport.handleOpen
  rw [drainGo_all_ok _ _ _ (fun _ => rfl)]
  simp [hq2, hs2]

theorem runCycles_spec (cys : List (List String)) :
    ∀ s : Transport, s.sendQueue = [] →
    (runCycles cys s).sent = s.sent ++ cys.flatten ∧ (runCycles cys s).sendQueue = [] := by
  induction cys with
  | nil => intro s hq; simp [runCycles, hq]
  | cons c cs ih =>
      intro s hq
      have hc := cycle_spec c s hq
      have h1 : runCycles (c :: cs) s = runCycles cs (cycle c s) := rfl
      have hrest := ih (cycle c s) hc.2
      rw [h1, hrest.1, hrest.2, hc.1]
      simp

/-- C6: messages sent while the channel is Closed or Connecting are enqueued
in order with no loss; on entering Open the queue is drained in FIFO order
(transmission log extended by exactly the queue, in order); a raw send
failure mid-drain leaves the failed message at the front of the remaining
queue and stops draining for the cycle; and across any number of
disconnect/reconnect cycles every message sent while down is delivered
exactly once, in order. -/
theorem c6_transport_fifo :
    (∀ (s : Transport) (p : String) (ok : Bool), ChannelDown s →
      (Transport.safeSend ok p s).sendQueue = s.sendQueue ++ [p]
      ∧ (Transport.safeSend ok p s).sent = s.sent)
    ∧ (∀ (q sent : List String) (ok : Nat → Bool), (∀ i, ok i = true) →
        drainGo ok q sent = ([], sent ++ q))
    ∧ (∀ (q sent : List String) (ok : Nat → Bool) (k : Nat),
        k < q.length → (∀ i, i < k → ok i = true) → ok k = false →
        drainGo ok q sent = (q.drop k, sent ++ q.take k)
        ∧ (q.drop k).head? = q[k]?)
    ∧ (∀ (cys : List (List String)) (s : Transport), s.sendQueue = [] →
        (runCycles cys s).sent = s.sent ++ cys.flatten
        ∧ (runCycles cys s).sendQueue = []) := by
  refine ⟨?_, ?_, ?_, ?_⟩
  · intro s p ok h
    exact ⟨(safeSend_down s p ok h).1, (safeSend_down s p ok h).2.1⟩
  · intro q sent ok h
    exact drainGo_all_ok q sent ok h
  · intro q sent ok k hk hlt hkf
    exact ⟨drainGo_fail_at q k ok sent hk hlt hkf, List.head?_drop q k⟩
  · intro cys s hq
    exact runCycles_spec cys s hq

/-- Witness for C6 at concrete queues, oracles and cycles. -/
theorem c6_transport_fifo_witness :
    (Transport.safeSend true "m1" ⟨none, [], [], 0, none, false, true, true⟩).sendQueue = ["m1"]
    ∧ drainGo (fun _ => true) ["a", "b"] [] = ([], ["a", "b"])
    ∧ drainGo (fun i => i == 0) ["a", "b"] [] = (["b"], ["a"])
    ∧ (runCycles [["a"], ["b", "c"], ["d"]]
        ⟨some WsReady.opened, [], [], 0, none, false, true, true⟩).sent = ["a", "b", "c", "d"] := by
  refine ⟨?_, ?_, ?_, ?_⟩
  · have h := (c6_transport_fifo.1 ⟨none, [], [], 0, none, false, true, true⟩ "m1" true
      (Or.inl rfl)).1
    simpa using h
  · exact c6_transport_fifo.2.1 ["a", "b"] [] (fun _ => true) (fun _ => rfl)
  · have h := (c6_transport_fifo.2.2.1 ["a", "b"] [] (fun i => i == 0) 1
      (by decide) (by decide) (by decide)).1
    simpa using h
  · have h := (c6_transport_fifo.2.2.2 [["a"], ["b", "c"], ["d"]]
      ⟨some WsReady.opened, [], [], 0, none, false, true, true⟩ rfl).1
    simpa using h

/-- Counterexample to C7 as stated: after the attempt counter has passed the
maximum (reconnectAttempts = 10, so the next close pushes it to 11 > 10), no
reconnect timer is armed — and calling start() again is a no-op because the
service still counts as started: the socket handle stays absent, so start()
does not trigger a new connection attempt (only send does). -/
theorem c7_reconnect_backoff_cex :
    (Transport.handleClose ⟨none, [], [], 10, none, false, true, true⟩).reconnectTimer = none
    ∧ Transport.start true (Transport.handleClose ⟨none, [], [], 10, none, false, true, true⟩) =
        Transport.handleClose ⟨none, [], [], 10, none, false, true, true⟩
    ∧ (Transport.start true
        (Transport.handleClose ⟨none, [], [], 10, none, false, true, true⟩)).ws = none := by
  refine ⟨?_, ?_, ?_⟩ <;> decide

/-- C7 amended: on every unexpected close while the service is started and
auto-reconnect is on, a reconnect is scheduled with delay
base * min(30, attempts) — strictly growing with the attempt count within the
bound — and the attempt count is bounded by the maximum; once the maximum is
exceeded no timer is armed and the channel stays Closed; invoking send with
no socket triggers a new connection attempt; calling start() again while the
service is still marked started is a no-op (only stop() then start(), or
send, revives the channel). -/
theorem c7_reconnect_backoff_amended :
    (∀ s : Transport, s.intentionallyClosed = false → s.autoReconnect = true →
      s.isStarted = true → s.reconnectAttempts + 1 ≤ maxReconnectAttempts →
      Transport.handleClose s =
        { s with ws := none, reconnectAttempts := s.reconnectAttempts + 1,
                 reconnectTimer := some (baseReconnectDelay * (s.reconnectAttempts + 1)) })
    ∧ (∀ a b : Nat, a < b → b ≤ maxReconnectAttempts →
        baseReconnectDelay * a < baseReconnectDelay * b)
    ∧ (∀ s : Transport, s.intentionallyClosed = false → s.autoReconnect = true →
        s.isStarted = true → maxReconnectAttempts ≤ s.reconnectAttempts →
        Transport.handleClose s =
          { s with ws := none, reconnectAttempts := s.reconnectAttempts + 1 })
    ∧ (∀ (s : Transport) (p : String) (ok : Bool), s.ws = none →
        Transport.safeSend ok p s =
          { s with sendQueue := s.sendQueue ++ [p], ws := some WsReady.connecting })
    ∧ (∀ (s : Transport) (b : Bool), s.isStarted = true → Transport.start b s = s) := by
  refine ⟨?_, ?_, ?_, ?_, ?_⟩
  · intro s h1 h2 h3 h4
    have hgt : ¬ (s.reconnectAttempts + 1 > maxReconnectAttempts) := by omega
    have hmin : min 30 (s.reconnectAttempts + 1) = s.reconnectAttempts + 1 :=
      Nat.min_eq_right (by
        have : maxReconnectAttempts = 10 := rfl
        omega)
    unfold Transport.handleClose Transport.scheduleReconnect
    dsimp only
    rw [h1, h2, h3]
    simp [hgt, hmin]
  · intro a b hab hbm
    have hb : baseReconnectDelay = 1000 := rfl
    rw [hb]
    omega
  · intro s h1 h2 h3 h4
    have hgt : s.reconnectAttempts + 1 > maxReconnectAttempts := by omega
    unfold Transport.handleClose Transport.scheduleReconnect
    dsimp only
    rw [h1, h2, h3]
    simp [hgt]
  · intro s p ok h
    rw [Transport.safeSend, h]
    unfold Transport.connect
    simp
  · intro s b h
    unfold Transport.start
    rw [h]
    simp

/-- Witness for C7 amended at concrete transport states. -/
theorem c7_reconnect_backoff_amended_witness :
    Transport.handleClose ⟨some WsReady.opened, [], [], 0, none, false, true, true⟩ =
      ⟨none, [], [], 1, some 1000, false, true, true⟩
    ∧ baseReconnectDelay * 1 < baseReconnectDelay * 2
    ∧ Transport.handleClose ⟨none, [], [], 10, none, false, true, true⟩ =
      ⟨none, [], [], 11, none, false, true, true⟩
    ∧ Transport.safeSend true "m" ⟨none, ["q"], [], 11, none, false, true, true⟩ =
      ⟨some WsReady.connecting, ["q", "m"], [], 11, none, false, true, true⟩
    ∧ Transport.start true ⟨none, [], [], 11, none, false, true, true⟩ =
      ⟨none, [], [], 11, none, false, true, true⟩ := by
  refine ⟨?_, ?_, ?_, ?_, ?_⟩
  · exact (c7_reconnect_backoff_amended.1 ⟨some WsReady.opened, [], [], 0, none, false, true, true⟩
      rfl rfl rfl (by decide)).trans (by decide)
  · exact c7_reconnect_backoff_amended.2.1 1 2 (by decide) (by decide)
  · exact (c7_reconnect_backoff_amended.2.2.1 ⟨none, [], [], 10, none, false, true, true⟩
      rfl rfl rfl (by decide)).trans (by decide)
  · exact (c7_reconnect_backoff_amended.2.2.2.1 ⟨none, ["q"], [], 11, none, false, true, true⟩
      "m" true rfl).trans (by decide)
  · exact c7_reconnect_backoff_amended.2.2.2.2 ⟨none, [], [], 11, none, false, true, true⟩
      true rfl

end WatchTogether
